import Mathlib

/-!
Shallow embedding of the newsletter dispatch engine in `src/main.py`
(`NewsletterSender`).  Pure data stands in for the effectful pieces:

* time is a `Nat` clock held in the engine state and advanced by the modelled
  sleeps (the only waits the program performs are `time.sleep` calls whose
  durations we record in a `sleeps` trace; the batch-cooldown countdown of
  `batch_delay` one-second sleeps is recorded as one wait of `batch_delay`);
* the SMTP server's reaction to the k-th `server.send_message` call for a
  recipient is given by that recipient's `sendAt : Nat → SendResult` script,
  one constructor per `except` clause of the source;
* the CSV results file is the list of `Row`s written with `writer.writerow`;
* a Python exception that escapes a handler is an explicit `raised` outcome.
-/

namespace Newsletter

/-- Occurrence of `needle` as a contiguous run inside `hay`, on character
lists; mirrors Python's `needle in hay` substring test. -/
def subOccurs (needle : List Char) : List Char → Bool
  | [] => needle.isEmpty
  | c :: cs => needle.isPrefixOf (c :: cs) || subOccurs needle cs

/-- Python's `needle in hay` for strings. -/
def strContains (hay needle : String) : Bool :=
  subOccurs needle.data hay.data

/-- Python `str.lower()` (ASCII case folding, which covers the addresses
and messages in scope), structurally recursive so that concrete instances
reduce. -/
def pyLower (s : String) : String := ⟨s.data.map Char.toLower⟩

/-- Leading whitespace removal on a character list. -/
def dropWs : List Char → List Char
  | [] => []
  | c :: cs => if c.isWhitespace then dropWs cs else c :: cs

/-- Python `str.strip()`: drop leading and trailing whitespace. -/
def pyStrip (s : String) : String :=
  ⟨(dropWs (dropWs s.data).reverse).reverse⟩

/-- The check `'policy violation' in (message or '').lower()` performed by
every rejection handler in `send_newsletters` (src/main.py 284, 319, 343). -/
def hasPolicyViolation (m : String) : Bool :=
  strContains (pyLower m) "policy violation"

/-- Python `.strip().lower()` as applied to addresses (src/main.py 204-205
and in `_read_blacklist`). -/
def normalizeAddr (s : String) : String := pyLower (pyStrip s)

/-- The `rate_limit` section of the YAML configuration (src/main.py 58-72). -/
structure RateConfig where
  emails_per_batch : Nat
  batch_delay : Nat
  delay_between_emails : Nat
deriving DecidableEq

/-- The mutable fields of `NewsletterSender` used by the dispatch loop
(src/main.py 28-30), plus the `Nat` clock standing in for `time.time()`. -/
structure EngineState where
  sent_count : Nat
  last_send_time : Nat
  now : Nat
  last_successful_email : Option String
deriving DecidableEq

/-- Which branch of `_rate_limit` fired on a given call. -/
inductive RateAction
  | batchPause (d : Nat)
  | spacingWait (w : Nat)
  | noWait
deriving DecidableEq

/-- The sleep durations a `RateAction` performs. -/
def RateAction.waits : RateAction → List Nat
  | .batchPause d => [d]
  | .spacingWait w => [w]
  | .noWait => []

/-- `_rate_limit` (src/main.py 56-75): if `sent_count` has reached
`emails_per_batch`, sleep `batch_delay` seconds (a countdown of one-second
sleeps in the source) and reset `sent_count` to 0; otherwise, if less than
`delay_between_emails` has elapsed since `last_send_time`, sleep exactly the
remaining difference.  Returns the updated state and the action taken. -/
def _rate_limit (cfg : RateConfig) (st : EngineState) : EngineState × RateAction :=
  if cfg.emails_per_batch ≤ st.sent_count then
    ({ st with sent_count := 0, now := st.now + cfg.batch_delay },
      .batchPause cfg.batch_delay)
  else
    let elapsed := st.now - st.last_send_time
    if elapsed < cfg.delay_between_emails then
      let wait := cfg.delay_between_emails - elapsed
      ({ st with now := st.now + wait }, .spacingWait wait)
    else
      (st, .noWait)

/-- Outcome of one `server.send_message` call, one constructor per `except`
clause of the attempt loop (src/main.py 250, 259, 304, 339).  For the two
typed rejections, `code`/`msg` are the values the handler extracts from the
exception (`code` is `none` when extraction fails, Python `None`). -/
inductive SendResult
  | ok
  | disconnected (msg : String)
  | recipientsRefused (code : Option Nat) (msg : String)
  | dataError (code : Option Nat) (msg : String)
  | otherError (msg : String)
deriving DecidableEq

/-- Python `str(code)` where `code : Optional[int]`; `str(None) = "None"`. -/
def codeStr : Option Nat → String
  | none => "None"
  | some n => toString n

/-- The detail string `f'{code} {message}'.strip()` written by the typed
rejection handlers (src/main.py 279, 287, 294, 314, 322, 329). -/
def errDetail (code : Option Nat) (m : String) : String :=
  pyStrip (codeStr code ++ " " ++ m)

/-- The detail string the engine writes for a terminal failure result. -/
def failureDetail : SendResult → String
  | .recipientsRefused c m => errDetail c m
  | .dataError c m => errDetail c m
  | .otherError m => m
  | .disconnected m => m
  | .ok => ""

/-- The closed set of statuses written to the results file (spec §3). -/
inductive Status
  | success
  | skipped_blacklist
  | skipped
  | skipped_policy_violation
  | failed
deriving DecidableEq

/-- The literal status string written in the CSV row for each status. -/
def statusStr : Status → String
  | .success => "success"
  | .skipped_blacklist => "skipped_blacklist"
  | .skipped => "skipped"
  | .skipped_policy_violation => "skipped_policy_violation"
  | .failed => "failed"

/-- One row of the results file: `writer.writerow([email, status, detail])`. -/
structure Row where
  email : String
  status : Status
  detail : String
deriving DecidableEq

/-- A recipient: the raw `email` CSV field and the script of send outcomes,
`sendAt k` being what the k-th (0-based) `server.send_message` call does. -/
structure Recipient where
  email : String
  sendAt : Nat → SendResult

/-- How the attempt loop (src/main.py 218-362) ended for one recipient:
`broke success nonFatalSkip` is a `break` (or loop exhaustion) with the two
flags of src/main.py 215-216; `halted` is a `return` from inside a handler
(the `stop_on_error` abort); `raised` is an exception escaping the loop. -/
inductive LoopRes
  | broke (success : Bool) (nonFatalSkip : Bool)
  | halted
  | raised (msg : String)
deriving DecidableEq

/-- Observable effects of the attempt loop: rows written, sleep durations in
order, number of `server.send_message` calls, final engine state, result. -/
structure LoopOut where
  rows : List Row
  sleeps : List Nat
  sends : Nat
  st : EngineState
  res : LoopRes
deriving DecidableEq

/-- The attempt loop `for attempt in range(retries)` with `retries = 3`
(src/main.py 214-362), recursing on the number of remaining attempts (the
current 0-based attempt index is `2 - remaining` counting the recursive call
argument, i.e. `3 - (remaining+1)`).  Each attempt calls `_rate_limit`, then
sends; the branches mirror the source's `except` clauses:

* success: `success` row, `sent_count += 1`, `last_send_time = time.time()`,
  `last_successful_email` updated, `break`;
* `SMTPServerDisconnected`: if `attempt < retries - 1`, sleep 5 and retry,
  else the bare `raise` re-raises — the exception escapes the attempt loop
  (it is NOT caught by the sibling `except Exception` of the same `try`);
* `SMTPRecipientsRefused` / `SMTPDataError`: code 556 → `skipped` row and
  `break`; else policy-violation text → `skipped_policy_violation` row,
  sleep 600, `break`; else `failed` row and `return` when `stop_on_error`
  else `break`;
* any other exception: policy-violation text → `skipped_policy_violation`
  row, sleep 600, `break`; else `failed` row and `return` when
  `stop_on_error` else `break`. -/
def attemptLoop (cfg : RateConfig) (stop : Bool) (email : String)
    (sendAt : Nat → SendResult) : Nat → EngineState → LoopOut
  | 0, st => ⟨[], [], 0, st, .broke false false⟩
  | remaining + 1, st =>
    let rl := _rate_limit cfg st
    let st1 := rl.1
    let waits := rl.2.waits
    match sendAt (2 - remaining) with
    | .ok =>
      ⟨[⟨email, .success, ""⟩], waits, 1,
        { st1 with sent_count := st1.sent_count + 1, last_send_time := st1.now,
                   last_successful_email := some email },
        .broke true false⟩
    | .disconnected m =>
      if 0 < remaining then
        let out := attemptLoop cfg stop email sendAt remaining
          { st1 with now := st1.now + 5 }
        ⟨out.rows, waits ++ 5 :: out.sleeps, out.sends + 1, out.st, out.res⟩
      else
        ⟨[], waits, 1, st1, .raised m⟩
    | .recipientsRefused code m =>
      if code = some 556 then
        ⟨[⟨email, .skipped, errDetail code m⟩], waits, 1, st1, .broke false true⟩
      else if hasPolicyViolation m then
        ⟨[⟨email, .skipped_policy_violation, errDetail code m⟩], waits ++ [600], 1,
          { st1 with now := st1.now + 600 }, .broke false true⟩
      else
        ⟨[⟨email, .failed, errDetail code m⟩], waits, 1, st1,
          if stop then .halted else .broke false false⟩
    | .dataError code m =>
      if code = some 556 then
        ⟨[⟨email, .skipped, errDetail code m⟩], waits, 1, st1, .broke false true⟩
      else if hasPolicyViolation m then
        ⟨[⟨email, .skipped_policy_violation, errDetail code m⟩], waits ++ [600], 1,
          { st1 with now := st1.now + 600 }, .broke false true⟩
      else
        ⟨[⟨email, .failed, errDetail code m⟩], waits, 1, st1,
          if stop then .halted else .broke false false⟩
    | .otherError m =>
      if hasPolicyViolation m then
        ⟨[⟨email, .skipped_policy_violation, m⟩], waits ++ [600], 1,
          { st1 with now := st1.now + 600 }, .broke false true⟩
      else
        ⟨[⟨email, .failed, m⟩], waits, 1, st1,
          if stop then .halted else .broke false false⟩

/-- Per-recipient control result: go to the next recipient, `return` out of
`send_newsletters`, or let an exception propagate to the run-level handler. -/
inductive StepRes
  | next
  | halted
  | raised (msg : String)
deriving DecidableEq

/-- Observable effects of processing one recipient. -/
structure StepOut where
  rows : List Row
  sleeps : List Nat
  sends : Nat
  st : EngineState
  res : StepRes
deriving DecidableEq

/-- One iteration of `for index, recipient in enumerate(recipients, 1)`
(src/main.py 202-370): the blacklist check on the stripped, lowercased
address (writing the stripped address with status `skipped_blacklist`,
touching nothing else), then the attempt loop, then the post-loop
`if not email_sent_successfully and self.stop_on_error and not non_fatal_skip`
abort check (src/main.py 365-370). -/
def processRecipient (cfg : RateConfig) (blacklist : Finset String) (stop : Bool)
    (r : Recipient) (st : EngineState) : StepOut :=
  if normalizeAddr r.email ∈ blacklist then
    ⟨[⟨pyStrip r.email, .skipped_blacklist, "blacklisted"⟩], [], 0, st, .next⟩
  else
    let out := attemptLoop cfg stop r.email r.sendAt 3 st
    match out.res with
    | .broke success nfs =>
      if !success && stop && !nfs then
        ⟨out.rows, out.sleeps, out.sends, out.st, .halted⟩
      else
        ⟨out.rows, out.sleeps, out.sends, out.st, .next⟩
    | .halted => ⟨out.rows, out.sleeps, out.sends, out.st, .halted⟩
    | .raised m => ⟨out.rows, out.sleeps, out.sends, out.st, .raised m⟩

/-- How the whole recipient loop ended. -/
inductive RunExit
  | finished
  | stopped
  | raised (msg : String)
deriving DecidableEq

/-- Observable effects of the whole recipient loop. -/
structure RunOut where
  rows : List Row
  sleeps : List Nat
  sends : Nat
  st : EngineState
  exit : RunExit
deriving DecidableEq

/-- The recipient loop of `send_newsletters`: recipients in file order; a
`raised` step reaches the run-level `except Exception` handler (src/main.py
376-381), which logs, reports and re-raises. -/
def runRecipients (cfg : RateConfig) (blacklist : Finset String) (stop : Bool) :
    List Recipient → EngineState → RunOut
  | [], st => ⟨[], [], 0, st, .finished⟩
  | r :: rs, st =>
    let o := processRecipient cfg blacklist stop r st
    match o.res with
    | .next =>
      let o2 := runRecipients cfg blacklist stop rs o.st
      ⟨o.rows ++ o2.rows, o.sleeps ++ o2.sleeps, o.sends + o2.sends, o2.st, o2.exit⟩
    | .halted => ⟨o.rows, o.sleeps, o.sends, o.st, .stopped⟩
    | .raised m => ⟨o.rows, o.sleeps, o.sends, o.st, .raised m⟩

/-- Inputs of one `send_newsletters` call, with the startup effects made
explicit: `blacklistLoad = none` models `_read_blacklist` raising (file
missing/unreadable), `connTestFail = some m` models `_test_smtp_connection`
raising `m`, `loginFail = some m` models the sending connection/login
(src/main.py 198-199) raising `m` after the results file was created. -/
structure RunInput where
  blacklistLoad : Option (Finset String)
  connTestFail : Option String
  loginFail : Option String
  recipients : List Recipient
  stop_on_error : Bool
  cfg : RateConfig

/-- Terminal behavior of one `send_newsletters` call.  `raised…` outcomes
are exceptions propagating out of the method (terminating the process via
`main`); `returned…`/`stopped…`/`finished…` are normal returns.  The
`…NoResults` / `…BeforeResults` outcomes occur before the results file is
created; the others carry the rows the results file holds. -/
inductive RunOutcome
  | returnedNoResults
  | raisedBeforeResults (msg : String)
  | raisedWithResults (rows : List Row) (msg : String)
  | stoppedEarly (rows : List Row)
  | finishedAll (rows : List Row)
deriving DecidableEq

/-- Whether the outcome is an exception propagating out of the method. -/
def RunOutcome.isRaised : RunOutcome → Bool
  | .raisedBeforeResults _ => true
  | .raisedWithResults _ _ => true
  | _ => false

/-- Result of a run together with the total send attempts and sleeps. -/
structure RunResult where
  outcome : RunOutcome
  sends : Nat
  sleeps : List Nat
deriving DecidableEq

/-- `send_newsletters` (src/main.py 154-381).  The blacklist is loaded first
and a load failure is caught locally (166-172): the method logs and returns
with nothing else done.  Then `_test_smtp_connection` runs outside any local
handler, so its exception propagates (176).  Then the results file is
created (192-194) and the sending connection opened inside the run-level
`try`; a failure there, or an exception escaping the recipient loop, is
caught at 376-381, reported and re-raised.  `st0` is the engine state at
call time (`__init__` sets counters to zero). -/
def send_newsletters (inp : RunInput) (st0 : EngineState) : RunResult :=
  match inp.blacklistLoad with
  | none => ⟨.returnedNoResults, 0, []⟩
  | some bl =>
    match inp.connTestFail with
    | some m => ⟨.raisedBeforeResults m, 0, []⟩
    | none =>
      match inp.loginFail with
      | some m => ⟨.raisedWithResults [] m, 0, []⟩
      | none =>
        let o := runRecipients inp.cfg bl inp.stop_on_error inp.recipients st0
        match o.exit with
        | .finished => ⟨.finishedAll o.rows, o.sends, o.sleeps⟩
        | .stopped => ⟨.stoppedEarly o.rows, o.sends, o.sleeps⟩
        | .raised m => ⟨.raisedWithResults o.rows m, o.sends, o.sleeps⟩

/-- Split a character list at commas, the cell division the `csv` module
performs on the plain unquoted rows of the files in scope. -/
def splitComma : List Char → List (List Char)
  | [] => [[]]
  | c :: cs =>
    if c = ',' then [] :: splitComma cs
    else
      match splitComma cs with
      | [] => [[c]]
      | h :: t => (c :: h) :: t

/-- Cells of one CSV line; the suppression files in scope are plain
unquoted comma-separated rows, and the `csv` module yields `[]` for an
empty line (which both readers skip). -/
def rowOf (line : String) : List String :=
  if line = "" then [] else (splitComma line.data).map String.mk

/-- Index of the last occurrence of `x` (Python's `DictReader` keeps the
last column when fieldnames repeat, since later dict keys overwrite). -/
def lastIdxOf (x : String) : List String → Option Nat
  | [] => none
  | y :: ys =>
    match lastIdxOf x ys with
    | some i => some (i + 1)
    | none => if y = x then some 0 else none

/-- The value `row.get('email') or ''` of Python's `DictReader` given the
header cells and a data row: the cell under the last column named exactly
`email`, or `''` when there is no such column or the row is short. -/
def emailField (header row : List String) : String :=
  match lastIdxOf "email" header with
  | none => ""
  | some i => row.getD i ""

/-- `_read_blacklist` (src/main.py 93-152), file given as its list of lines.
`peek = f.readline()` is the first line; if it contains `email`
case-insensitively, the file is re-read (after `f.seek(0)`) with a
`DictReader` (header = first line, each later row contributes its `email`
column, stripped and lowercased, if non-empty); otherwise a plain reader
walks every line, skipping empty rows and the stray value `email`, adding
each non-empty stripped lowercased first cell.  The OS-level locking of the
source is a no-op for the value computed. -/
def _read_blacklist (lines : List String) : Finset String :=
  let first := lines.headD ""
  if strContains (pyLower first) "email" then
    lines.tail.foldl (fun s line =>
      let row := rowOf line
      if row = [] then s
      else
        let email := normalizeAddr (emailField (rowOf first) row)
        if email = "" then s else insert email s) ∅
  else
    lines.foldl (fun s line =>
      let row := rowOf line
      if row = [] then s
      else
        let email := normalizeAddr (row.getD 0 "")
        if email = "email" then s
        else if email = "" then s else insert email s) ∅

/-- Addresses a headered suppression file contributes, in file order:
the non-empty normalized `email`-column values of the rows after the
header (spec §4.1, headered format). -/
def headeredAddrs (lines : List String) : List String :=
  lines.tail.filterMap (fun line =>
    let row := rowOf line
    if row = [] then none
    else
      let email := normalizeAddr (emailField (rowOf (lines.headD "")) row)
      if email = "" then none else some email)

/-- Addresses a headerless suppression file contributes, in file order: the
non-empty normalized first cells of all rows, a stray header-like value
`email` skipped (spec §4.1, headerless format). -/
def headerlessAddrs (lines : List String) : List String :=
  lines.filterMap (fun line =>
    let row := rowOf line
    if row = [] then none
    else
      let email := normalizeAddr (row.getD 0 "")
      if email = "email" then none
      else if email = "" then none else some email)

/-- The address a recipient's results row carries if one is written: the
stripped address for a suppressed recipient (src/main.py 209), the raw CSV
field otherwise (src/main.py 242, 279, 287, 294, …). -/
def emitEmail (blacklist : Finset String) (r : Recipient) : String :=
  if normalizeAddr r.email ∈ blacklist then pyStrip r.email else r.email

/-- The send outcomes before attempt `k` were all disconnects, so the
attempt loop reaches attempt `k` (the only retried failure class). -/
def disconnectsBefore (sendAt : Nat → SendResult) (k : Nat) : Prop :=
  ∀ j, j < k → ∃ m, sendAt j = SendResult.disconnected m

/-- A rejection the engine classifies as a plain failure: a typed rejection
whose code is not 556 and whose message lacks policy-violation text, or an
unclassified exception without policy-violation text. -/
def isUnclassifiedFailure (res : SendResult) : Prop :=
  (∃ c m, res = SendResult.recipientsRefused c m ∧ c ≠ some 556 ∧
    hasPolicyViolation m = false) ∨
  (∃ c m, res = SendResult.dataError c m ∧ c ≠ some 556 ∧
    hasPolicyViolation m = false) ∨
  (∃ m, res = SendResult.otherError m ∧ hasPolicyViolation m = false)

/-- A failure the engine classifies as a policy violation: any non-disconnect
failure whose message has policy-violation text, with code ≠ 556 for the
typed rejections (code 556 wins otherwise). -/
def isPolicyFailure (res : SendResult) : Prop :=
  (∃ c m, res = SendResult.recipientsRefused c m ∧ c ≠ some 556 ∧
    hasPolicyViolation m = true) ∨
  (∃ c m, res = SendResult.dataError c m ∧ c ≠ some 556 ∧
    hasPolicyViolation m = true) ∨
  (∃ m, res = SendResult.otherError m ∧ hasPolicyViolation m = true)

/-- A sample rate configuration: 10 mails per batch, 7 s cooldown, no
inter-mail spacing. -/
def cfg0 : RateConfig := ⟨10, 7, 0⟩

/-- The engine state `__init__` leaves behind: zero counters, clock at 0. -/
def st0 : EngineState := ⟨0, 0, 0, none⟩

/-- A recipient every send to whom succeeds. -/
def rOk : Recipient := ⟨"a@x", fun _ => SendResult.ok⟩

/-- A recipient every send to whom hits a server disconnect. -/
def rDisc : Recipient := ⟨"bob@x", fun _ => SendResult.disconnected "boom"⟩

/-- A recipient every send to whom hits a disconnect whose message is
policy-violation text. -/
def rPolDisc : Recipient :=
  ⟨"bob@x", fun _ => SendResult.disconnected "policy violation"⟩

/-- A recipient whose sends are refused with a policy-violation message. -/
def rPolRef : Recipient :=
  ⟨"c@x", fun _ => SendResult.recipientsRefused (some 421) "Policy Violation"⟩

/-- A recipient whose sends fail with an unclassified error. -/
def rFail : Recipient := ⟨"c@x", fun _ => SendResult.otherError "kaput"⟩

/-- A recipient whose sends are refused with code 556. -/
def r556 : Recipient :=
  ⟨"c@x", fun _ => SendResult.recipientsRefused (some 556) "bad domain"⟩

/-- A recipient whose sends hit a data error with code 556 and a message
that also contains policy-violation text. -/
def r556p : Recipient :=
  ⟨"c@x", fun _ => SendResult.dataError (some 556) "policy violation zone"⟩

/-! Supporting lemmas. -/

/-- Every wait `_rate_limit` performs is either the batch cooldown or a
spacing wait of at most `delay_between_emails` seconds. -/
theorem rate_waits_bound (cfg : RateConfig) (st : EngineState) :
    ∀ x ∈ (_rate_limit cfg st).2.waits,
      x = cfg.batch_delay ∨ x ≤ cfg.delay_between_emails := by
  simp only [_rate_limit]
  split_ifs
  · simp [RateAction.waits]
  · simp only [RateAction.waits, List.mem_singleton]
    rintro x rfl
    right
    omega
  · simp [RateAction.waits]

/-- C6: on every rate-limiter call, the batch check takes precedence: with
`sent_count ≥ emails_per_batch` the call waits `batch_delay` seconds and
resets `sent_count` to 0; otherwise `sent_count` is untouched and the call
waits exactly `delay_between_emails` minus the elapsed time when that
difference is positive, and nothing otherwise.  `sent_count` never
decreases except through the batch branch, and leaves a call as zero only
if it was already zero or a batch pause just happened. -/
theorem rate_limit_policy (cfg : RateConfig) (st : EngineState) :
    (cfg.emails_per_batch ≤ st.sent_count →
      _rate_limit cfg st =
        ({ st with sent_count := 0, now := st.now + cfg.batch_delay },
          RateAction.batchPause cfg.batch_delay)) ∧
    (st.sent_count < cfg.emails_per_batch →
      (_rate_limit cfg st).1.sent_count = st.sent_count ∧
      (st.now - st.last_send_time < cfg.delay_between_emails →
        (_rate_limit cfg st).2 =
          RateAction.spacingWait
            (cfg.delay_between_emails - (st.now - st.last_send_time))) ∧
      (cfg.delay_between_emails ≤ st.now - st.last_send_time →
        (_rate_limit cfg st).2 = RateAction.noWait)) ∧
    ((_rate_limit cfg st).1.sent_count = 0 →
      st.sent_count = 0 ∨
        (_rate_limit cfg st).2 = RateAction.batchPause cfg.batch_delay) ∧
    (st.sent_count ≤ (_rate_limit cfg st).1.sent_count ∨
      (_rate_limit cfg st).2 = RateAction.batchPause cfg.batch_delay) := by
  simp only [_rate_limit]
  split_ifs with hb hs
  · exact ⟨fun _ => rfl, fun h => absurd hb (by omega), fun _ => Or.inr rfl, Or.inr rfl⟩
  · exact ⟨fun h => absurd h hb, fun _ => ⟨rfl, fun _ => rfl, fun h => absurd hs (by omega)⟩,
      fun h => Or.inl h, Or.inl le_rfl⟩
  · exact ⟨fun h => absurd h hb, fun h => ⟨rfl, fun h2 => absurd h2 hs, fun _ => rfl⟩,
      fun h => Or.inl h, Or.inl le_rfl⟩

/-- Witness for C6: a call with `sent_count` at the batch limit pauses for
`batch_delay = 7` seconds and resets the counter. -/
theorem rate_limit_policy_witness :
    (2 : Nat) ≤ 2 ∧
    _rate_limit ⟨2, 7, 3⟩ ⟨2, 4, 9, none⟩ =
      (⟨0, 4, 16, none⟩, RateAction.batchPause 7) :=
  ⟨le_rfl, (rate_limit_policy ⟨2, 7, 3⟩ ⟨2, 4, 9, none⟩).1 le_rfl⟩

/-- If the attempt loop reaches attempt `k` (all earlier attempts
disconnected) and attempt `k` is refused with code 556 (by either typed
rejection), the loop writes one `skipped` row, sets the non-fatal-skip
flag, and every sleep it performed is a 5-second reconnect wait or a
rate-limiter wait. -/
theorem attemptLoop3_556 (cfg : RateConfig) (stop : Bool) (email : String)
    (sendAt : Nat → SendResult) (k : Nat) (hk : k < 3)
    (hd : disconnectsBefore sendAt k) (m : String)
    (hc : sendAt k = SendResult.recipientsRefused (some 556) m ∨
          sendAt k = SendResult.dataError (some 556) m)
    (st : EngineState) :
    (attemptLoop cfg stop email sendAt 3 st).rows =
      [⟨email, Status.skipped, errDetail (some 556) m⟩] ∧
    (attemptLoop cfg stop email sendAt 3 st).res = LoopRes.broke false true ∧
    ∀ x ∈ (attemptLoop cfg stop email sendAt 3 st).sleeps,
      x = 5 ∨ x = cfg.batch_delay ∨ x ≤ cfg.delay_between_emails := by
  interval_cases k
  · rcases hc with h | h <;>
      refine ⟨by simp [attemptLoop, h], by simp [attemptLoop, h], ?_⟩ <;>
      · simp [attemptLoop, h]
        rintro x hx
        exact Or.inr (rate_waits_bound cfg st x hx)
  · obtain ⟨m0, h0⟩ := hd 0 (by omega)
    rcases hc with h | h <;>
      refine ⟨by simp [attemptLoop, h0, h], by simp [attemptLoop, h0, h], ?_⟩ <;>
      · simp [attemptLoop, h0, h]
        rintro x (hx | rfl | hx)
        · exact Or.inr (rate_waits_bound cfg st x hx)
        · exact Or.inl rfl
        · exact Or.inr (rate_waits_bound cfg _ x hx)
  · obtain ⟨m0, h0⟩ := hd 0 (by omega)
    obtain ⟨m1, h1⟩ := hd 1 (by omega)
    rcases hc with h | h <;>
      refine ⟨by simp [attemptLoop, h0, h1, h], by simp [attemptLoop, h0, h1, h], ?_⟩ <;>
      · simp [attemptLoop, h0, h1, h]
        rintro x (hx | rfl | hx | rfl | hx)
        · exact Or.inr (rate_waits_bound cfg st x hx)
        · exact Or.inl rfl
        · exact Or.inr (rate_waits_bound cfg _ x hx)
        · exact Or.inl rfl
        · exact Or.inr (rate_waits_bound cfg _ x hx)

/-- If the attempt loop reaches attempt `k` and attempt `k` fails with
policy-violation text (any non-disconnect class, code ≠ 556 for the typed
rejections), the loop writes one `skipped_policy_violation` row, performs a
600-second sleep, and sets the non-fatal-skip flag, whatever
`stop_on_error` is. -/
theorem attemptLoop3_policy (cfg : RateConfig) (stop : Bool) (email : String)
    (sendAt : Nat → SendResult) (k : Nat) (hk : k < 3)
    (hd : disconnectsBefore sendAt k)
    (hp : isPolicyFailure (sendAt k)) (st : EngineState) :
    (attemptLoop cfg stop email sendAt 3 st).rows =
      [⟨email, Status.skipped_policy_violation, failureDetail (sendAt k)⟩] ∧
    (attemptLoop cfg stop email sendAt 3 st).res = LoopRes.broke false true ∧
    600 ∈ (attemptLoop cfg stop email sendAt 3 st).sleeps := by
  interval_cases k
  · rcases hp with ⟨c, m, heq, hc, hpol⟩ | ⟨c, m, heq, hc, hpol⟩ | ⟨m, heq, hpol⟩
    · exact ⟨by simp [attemptLoop, heq, hc, hpol, failureDetail],
        by simp [attemptLoop, heq, hc, hpol], by simp [attemptLoop, heq, hc, hpol]⟩
    · exact ⟨by simp [attemptLoop, heq, hc, hpol, failureDetail],
        by simp [attemptLoop, heq, hc, hpol], by simp [attemptLoop, heq, hc, hpol]⟩
    · exact ⟨by simp [attemptLoop, heq, hpol, failureDetail],
        by simp [attemptLoop, heq, hpol], by simp [attemptLoop, heq, hpol]⟩
  · obtain ⟨m0, h0⟩ := hd 0 (by omega)
    rcases hp with ⟨c, m, heq, hc, hpol⟩ | ⟨c, m, heq, hc, hpol⟩ | ⟨m, heq, hpol⟩
    · exact ⟨by simp [attemptLoop, h0, heq, hc, hpol, failureDetail],
        by simp [attemptLoop, h0, heq, hc, hpol], by simp [attemptLoop, h0, heq, hc, hpol]⟩
    · exact ⟨by simp [attemptLoop, h0, heq, hc, hpol, failureDetail],
        by simp [attemptLoop, h0, heq, hc, hpol], by simp [attemptLoop, h0, heq, hc, hpol]⟩
    · exact ⟨by simp [attemptLoop, h0, heq, hpol, failureDetail],
        by simp [attemptLoop, h0, heq, hpol], by simp [attemptLoop, h0, heq, hpol]⟩
  · obtain ⟨m0, h0⟩ := hd 0 (by omega)
    obtain ⟨m1, h1⟩ := hd 1 (by omega)
    rcases hp with ⟨c, m, heq, hc, hpol⟩ | ⟨c, m, heq, hc, hpol⟩ | ⟨m, heq, hpol⟩
    · exact ⟨by simp [attemptLoop, h0, h1, heq, hc, hpol, failureDetail],
        by simp [attemptLoop, h0, h1, heq, hc, hpol],
        by simp [attemptLoop, h0, h1, heq, hc, hpol]⟩
    · exact ⟨by simp [attemptLoop, h0, h1, heq, hc, hpol, failureDetail],
        by simp [attemptLoop, h0, h1, heq, hc, hpol],
        by simp [attemptLoop, h0, h1, heq, hc, hpol]⟩
    · exact ⟨by simp [attemptLoop, h0, h1, heq, hpol, failureDetail],
        by simp [attemptLoop, h0, h1, heq, hpol],
        by simp [attemptLoop, h0, h1, heq, hpol]⟩

/-- If the attempt loop reaches attempt `k` and attempt `k` fails
unclassified (not a disconnect, no code 556, no policy-violation text), the
loop writes one `failed` row and, when `stop_on_error` is set, returns out
of `send_newsletters`, else breaks with both flags clear. -/
theorem attemptLoop3_fail (cfg : RateConfig) (stop : Bool) (email : String)
    (sendAt : Nat → SendResult) (k : Nat) (hk : k < 3)
    (hd : disconnectsBefore sendAt k)
    (hu : isUnclassifiedFailure (sendAt k)) (st : EngineState) :
    (attemptLoop cfg stop email sendAt 3 st).rows =
      [⟨email, Status.failed, failureDetail (sendAt k)⟩] ∧
    (attemptLoop cfg stop email sendAt 3 st).res =
      (if stop then LoopRes.halted else LoopRes.broke false false) := by
  interval_cases k
  · rcases hu with ⟨c, m, heq, hc, hpol⟩ | ⟨c, m, heq, hc, hpol⟩ | ⟨m, heq, hpol⟩
    · exact ⟨by simp [attemptLoop, heq, hc, hpol, failureDetail],
        by simp [attemptLoop, heq, hc, hpol]⟩
    · exact ⟨by simp [attemptLoop, heq, hc, hpol, failureDetail],
        by simp [attemptLoop, heq, hc, hpol]⟩
    · exact ⟨by simp [attemptLoop, heq, hpol, failureDetail],
        by simp [attemptLoop, heq, hpol]⟩
  · obtain ⟨m0, h0⟩ := hd 0 (by omega)
    rcases hu with ⟨c, m, heq, hc, hpol⟩ | ⟨c, m, heq, hc, hpol⟩ | ⟨m, heq, hpol⟩
    · exact ⟨by simp [attemptLoop, h0, heq, hc, hpol, failureDetail],
        by simp [attemptLoop, h0, heq, hc, hpol]⟩
    · exact ⟨by simp [attemptLoop, h0, heq, hc, hpol, failureDetail],
        by simp [attemptLoop, h0, heq, hc, hpol]⟩
    · exact ⟨by simp [attemptLoop, h0, heq, hpol, failureDetail],
        by simp [attemptLoop, h0, heq, hpol]⟩
  · obtain ⟨m0, h0⟩ := hd 0 (by omega)
    obtain ⟨m1, h1⟩ := hd 1 (by omega)
    rcases hu with ⟨c, m, heq, hc, hpol⟩ | ⟨c, m, heq, hc, hpol⟩ | ⟨m, heq, hpol⟩
    · exact ⟨by simp [attemptLoop, h0, h1, heq, hc, hpol, failureDetail],
        by simp [attemptLoop, h0, h1, heq, hc, hpol]⟩
    · exact ⟨by simp [attemptLoop, h0, h1, heq, hc, hpol, failureDetail],
        by simp [attemptLoop, h0, h1, heq, hc, hpol]⟩
    · exact ⟨by simp [attemptLoop, h0, h1, heq, hpol, failureDetail],
        by simp [attemptLoop, h0, h1, heq, hpol]⟩

/-- If all three attempts hit a disconnect, the loop writes no row and the
third disconnect escapes the attempt loop as a raised exception (the bare
`raise` of src/main.py 258), with no policy-violation check applied. -/
theorem attemptLoop3_disc (cfg : RateConfig) (stop : Bool) (email : String)
    (sendAt : Nat → SendResult) (m0 m1 m2 : String)
    (h0 : sendAt 0 = SendResult.disconnected m0)
    (h1 : sendAt 1 = SendResult.disconnected m1)
    (h2 : sendAt 2 = SendResult.disconnected m2) (st : EngineState) :
    (attemptLoop cfg stop email sendAt 3 st).rows = [] ∧
    (attemptLoop cfg stop email sendAt 3 st).res = LoopRes.raised m2 := by
  exact ⟨by simp [attemptLoop, h0, h1, h2], by simp [attemptLoop, h0, h1, h2]⟩

/-- A non-suppressed recipient whose attempt loop ended in a `break` moves
to the next recipient exactly when the post-loop abort condition
(src/main.py 365) is false. -/
theorem processRecipient_broke (cfg : RateConfig) (bl : Finset String)
    (stop : Bool) (r : Recipient) (st : EngineState)
    (hnb : normalizeAddr r.email ∉ bl) (s nfs : Bool)
    (hres : (attemptLoop cfg stop r.email r.sendAt 3 st).res = LoopRes.broke s nfs)
    (hcond : (!s && stop && !nfs) = false) :
    processRecipient cfg bl stop r st =
      ⟨(attemptLoop cfg stop r.email r.sendAt 3 st).rows,
        (attemptLoop cfg stop r.email r.sendAt 3 st).sleeps,
        (attemptLoop cfg stop r.email r.sendAt 3 st).sends,
        (attemptLoop cfg stop r.email r.sendAt 3 st).st, StepRes.next⟩ := by
  simp [processRecipient, hnb, hres, hcond]

/-- A non-suppressed recipient whose attempt loop did a `stop_on_error`
return makes the whole method return. -/
theorem processRecipient_halted (cfg : RateConfig) (bl : Finset String)
    (stop : Bool) (r : Recipient) (st : EngineState)
    (hnb : normalizeAddr r.email ∉ bl)
    (hres : (attemptLoop cfg stop r.email r.sendAt 3 st).res = LoopRes.halted) :
    processRecipient cfg bl stop r st =
      ⟨(attemptLoop cfg stop r.email r.sendAt 3 st).rows,
        (attemptLoop cfg stop r.email r.sendAt 3 st).sleeps,
        (attemptLoop cfg stop r.email r.sendAt 3 st).sends,
        (attemptLoop cfg stop r.email r.sendAt 3 st).st, StepRes.halted⟩ := by
  simp [processRecipient, hnb, hres]

/-- A non-suppressed recipient whose attempt loop let an exception escape
passes that exception on. -/
theorem processRecipient_raised (cfg : RateConfig) (bl : Finset String)
    (stop : Bool) (r : Recipient) (st : EngineState)
    (hnb : normalizeAddr r.email ∉ bl) (m : String)
    (hres : (attemptLoop cfg stop r.email r.sendAt 3 st).res = LoopRes.raised m) :
    processRecipient cfg bl stop r st =
      ⟨(attemptLoop cfg stop r.email r.sendAt 3 st).rows,
        (attemptLoop cfg stop r.email r.sendAt 3 st).sleeps,
        (attemptLoop cfg stop r.email r.sendAt 3 st).sends,
        (attemptLoop cfg stop r.email r.sendAt 3 st).st, StepRes.raised m⟩ := by
  simp [processRecipient, hnb, hres]

/-- Unfolding of the recipient loop when the head recipient lets the run
continue. -/
theorem runRecipients_cons_next (cfg : RateConfig) (bl : Finset String)
    (stop : Bool) (r : Recipient) (rs : List Recipient) (st : EngineState)
    (h : (processRecipient cfg bl stop r st).res = StepRes.next) :
    runRecipients cfg bl stop (r :: rs) st =
      ⟨(processRecipient cfg bl stop r st).rows ++
          (runRecipients cfg bl stop rs (processRecipient cfg bl stop r st).st).rows,
        (processRecipient cfg bl stop r st).sleeps ++
          (runRecipients cfg bl stop rs (processRecipient cfg bl stop r st).st).sleeps,
        (processRecipient cfg bl stop r st).sends +
          (runRecipients cfg bl stop rs (processRecipient cfg bl stop r st).st).sends,
        (runRecipients cfg bl stop rs (processRecipient cfg bl stop r st).st).st,
        (runRecipients cfg bl stop rs (processRecipient cfg bl stop r st).st).exit⟩ := by
  simp [runRecipients, h]

/-- Unfolding of the recipient loop when the head recipient triggers the
`stop_on_error` return: later recipients are not processed. -/
theorem runRecipients_cons_halted (cfg : RateConfig) (bl : Finset String)
    (stop : Bool) (r : Recipient) (rs : List Recipient) (st : EngineState)
    (h : (processRecipient cfg bl stop r st).res = StepRes.halted) :
    runRecipients cfg bl stop (r :: rs) st =
      ⟨(processRecipient cfg bl stop r st).rows,
        (processRecipient cfg bl stop r st).sleeps,
        (processRecipient cfg bl stop r st).sends,
        (processRecipient cfg bl stop r st).st, RunExit.stopped⟩ := by
  simp [runRecipients, h]

/-- Unfolding of the recipient loop when the head recipient lets an
exception escape: later recipients are not processed and the exception
reaches the run-level handler. -/
theorem runRecipients_cons_raised (cfg : RateConfig) (bl : Finset String)
    (stop : Bool) (r : Recipient) (rs : List Recipient) (st : EngineState)
    (m : String)
    (h : (processRecipient cfg bl stop r st).res = StepRes.raised m) :
    runRecipients cfg bl stop (r :: rs) st =
      ⟨(processRecipient cfg bl stop r st).rows,
        (processRecipient cfg bl stop r st).sleeps,
        (processRecipient cfg bl stop r st).sends,
        (processRecipient cfg bl stop r st).st, RunExit.raised m⟩ := by
  simp [runRecipients, h]

/-- C4: a recipient whose (first non-disconnect) failure carries status
code 556 — from either typed rejection — gets one `skipped` row, the
attempt loop stops, and the run moves on to the next recipient whatever
`stop_on_error` is; the 556 rejection never triggers the abort. -/
theorem code556_skipped_continue (cfg : RateConfig) (bl : Finset String)
    (stop : Bool) (r : Recipient) (rest : List Recipient) (st : EngineState)
    (k : Nat) (hk : k < 3) (hd : disconnectsBefore r.sendAt k) (m : String)
    (hc : r.sendAt k = SendResult.recipientsRefused (some 556) m ∨
          r.sendAt k = SendResult.dataError (some 556) m)
    (hnb : normalizeAddr r.email ∉ bl) :
    (processRecipient cfg bl stop r st).rows =
      [⟨r.email, Status.skipped, errDetail (some 556) m⟩] ∧
    (processRecipient cfg bl stop r st).res = StepRes.next ∧
    (runRecipients cfg bl stop (r :: rest) st).rows =
      ⟨r.email, Status.skipped, errDetail (some 556) m⟩ ::
        (runRecipients cfg bl stop rest (processRecipient cfg bl stop r st).st).rows ∧
    (runRecipients cfg bl stop (r :: rest) st).exit =
      (runRecipients cfg bl stop rest (processRecipient cfg bl stop r st).st).exit := by
  obtain ⟨hrows, hres, _⟩ := attemptLoop3_556 cfg stop r.email r.sendAt k hk hd m hc st
  have hp := processRecipient_broke cfg bl stop r st hnb false true hres (by simp)
  have hn : (processRecipient cfg bl stop r st).res = StepRes.next := by rw [hp]
  have hr := runRecipients_cons_next cfg bl stop r rest st hn
  refine ⟨by rw [hp]; exact hrows, hn, ?_, ?_⟩
  · rw [hr]
    simp only [hp]
    rw [hrows]
    simp
  · rw [hr]

/-- Witness for C4: a concrete 556 rejection is recorded as `skipped` and
the loop continues. -/
theorem code556_skipped_continue_witness :
    (processRecipient cfg0 ∅ true r556 st0).rows =
      [⟨"c@x", Status.skipped, errDetail (some 556) "bad domain"⟩] ∧
    (processRecipient cfg0 ∅ true r556 st0).res = StepRes.next :=
  ⟨(code556_skipped_continue cfg0 ∅ true r556 [] st0 0 (by omega)
      (fun j hj => absurd hj (by omega)) "bad domain" (Or.inl rfl) (by decide)).1,
    (code556_skipped_continue cfg0 ∅ true r556 [] st0 0 (by omega)
      (fun j hj => absurd hj (by omega)) "bad domain" (Or.inl rfl) (by decide)).2.1⟩

/-- C10: when a typed rejection carries both code 556 and policy-violation
text, the 556 branch wins in both handlers: the row is `skipped` and no
600-second pause happens (stated for configurations whose rate waits cannot
themselves be 600 seconds). -/
theorem code556_beats_policy (cfg : RateConfig) (bl : Finset String)
    (stop : Bool) (r : Recipient) (st : EngineState)
    (k : Nat) (hk : k < 3) (hd : disconnectsBefore r.sendAt k) (m : String)
    (hc : r.sendAt k = SendResult.recipientsRefused (some 556) m ∨
          r.sendAt k = SendResult.dataError (some 556) m)
    (hpol : hasPolicyViolation m = true)
    (hnb : normalizeAddr r.email ∉ bl)
    (hbd : cfg.batch_delay ≠ 600) (hde : cfg.delay_between_emails < 600) :
    (processRecipient cfg bl stop r st).rows =
      [⟨r.email, Status.skipped, errDetail (some 556) m⟩] ∧
    (processRecipient cfg bl stop r st).res = StepRes.next ∧
    600 ∉ (processRecipient cfg bl stop r st).sleeps := by
  obtain ⟨hrows, hres, hsl⟩ := attemptLoop3_556 cfg stop r.email r.sendAt k hk hd m hc st
  have hp := processRecipient_broke cfg bl stop r st hnb false true hres (by simp)
  refine ⟨by rw [hp]; exact hrows, by rw [hp], ?_⟩
  rw [hp]
  intro h600
  rcases hsl 600 h600 with h | h | h
  · omega
  · exact hbd h.symm
  · omega

/-- Witness for C10: a concrete 556 data error whose message contains
policy-violation text is recorded as `skipped` with no 600-second pause. -/
theorem code556_beats_policy_witness :
    hasPolicyViolation "policy violation zone" = true ∧
    (processRecipient cfg0 ∅ true r556p st0).rows =
      [⟨"c@x", Status.skipped, errDetail (some 556) "policy violation zone"⟩] ∧
    600 ∉ (processRecipient cfg0 ∅ true r556p st0).sleeps :=
  ⟨rfl,
    (code556_beats_policy cfg0 ∅ true r556p st0 0 (by omega)
      (fun j hj => absurd hj (by omega)) "policy violation zone" (Or.inr rfl) rfl
      (by decide) (by decide) (by decide)).1,
    (code556_beats_policy cfg0 ∅ true r556p st0 0 (by omega)
      (fun j hj => absurd hj (by omega)) "policy violation zone" (Or.inr rfl) rfl
      (by decide) (by decide) (by decide)).2.2⟩

/-- C3: with `stop_on_error` set, the first recipient with an unclassified
failure gets one `failed` row and the run halts with no rows for any later
recipient; with `stop_on_error` clear the same recipient gets the `failed`
row and the run continues into the remaining recipients. -/
theorem unclassified_failure_stop_behavior (cfg : RateConfig)
    (bl : Finset String) (r : Recipient) (rest : List Recipient)
    (st : EngineState) (k : Nat) (hk : k < 3)
    (hd : disconnectsBefore r.sendAt k)
    (hu : isUnclassifiedFailure (r.sendAt k))
    (hnb : normalizeAddr r.email ∉ bl) :
    ((runRecipients cfg bl true (r :: rest) st).rows =
        [⟨r.email, Status.failed, failureDetail (r.sendAt k)⟩] ∧
      (runRecipients cfg bl true (r :: rest) st).exit = RunExit.stopped) ∧
    ((runRecipients cfg bl false (r :: rest) st).rows =
        ⟨r.email, Status.failed, failureDetail (r.sendAt k)⟩ ::
          (runRecipients cfg bl false rest
            (processRecipient cfg bl false r st).st).rows ∧
      (runRecipients cfg bl false (r :: rest) st).exit =
        (runRecipients cfg bl false rest
          (processRecipient cfg bl false r st).st).exit) := by
  constructor
  · obtain ⟨hrows, hres⟩ := attemptLoop3_fail cfg true r.email r.sendAt k hk hd hu st
    rw [if_pos rfl] at hres
    have hp := processRecipient_halted cfg bl true r st hnb hres
    have hh : (processRecipient cfg bl true r st).res = StepRes.halted := by rw [hp]
    have hr := runRecipients_cons_halted cfg bl true r rest st hh
    exact ⟨by rw [hr]; simp only [hp]; exact hrows, by rw [hr]⟩
  · obtain ⟨hrows, hres⟩ := attemptLoop3_fail cfg false r.email r.sendAt k hk hd hu st
    rw [if_neg (by simp)] at hres
    have hp := processRecipient_broke cfg bl false r st hnb false false hres (by simp)
    have hn : (processRecipient cfg bl false r st).res = StepRes.next := by rw [hp]
    have hr := runRecipients_cons_next cfg bl false r rest st hn
    refine ⟨?_, by rw [hr]⟩
    rw [hr]
    simp only [hp]
    rw [hrows]
    simp

/-- Witness for C3: a concrete unclassified failure halts the run with one
`failed` row when `stop_on_error` is set, and the following recipient gets
no row. -/
theorem unclassified_failure_stop_witness :
    (runRecipients cfg0 ∅ true [rFail, rOk] st0).rows =
      [⟨"c@x", Status.failed, "kaput"⟩] ∧
    (runRecipients cfg0 ∅ true [rFail, rOk] st0).exit = RunExit.stopped :=
  (unclassified_failure_stop_behavior cfg0 ∅ rFail [rOk] st0 0 (by omega)
    (fun j hj => absurd hj (by omega))
    (Or.inr (Or.inr ⟨"kaput", rfl, rfl⟩)) (by decide)).1

/-- C2 (amended): in the three non-disconnect exception handlers a message
with policy-violation text (code ≠ 556 for the typed rejections) always
yields one `skipped_policy_violation` row, a 600-second sleep, and the run
continues with the next recipient whatever `stop_on_error` is.  (The
disconnect handler is excluded: a disconnect that ages out re-raises
without any policy-violation check — see the C2 counterexample.) -/
theorem policy_violation_pause_continue (cfg : RateConfig) (bl : Finset String)
    (stop : Bool) (r : Recipient) (rest : List Recipient) (st : EngineState)
    (k : Nat) (hk : k < 3) (hd : disconnectsBefore r.sendAt k)
    (hp : isPolicyFailure (r.sendAt k))
    (hnb : normalizeAddr r.email ∉ bl) :
    (processRecipient cfg bl stop r st).rows =
      [⟨r.email, Status.skipped_policy_violation, failureDetail (r.sendAt k)⟩] ∧
    600 ∈ (processRecipient cfg bl stop r st).sleeps ∧
    (processRecipient cfg bl stop r st).res = StepRes.next ∧
    (runRecipients cfg bl stop (r :: rest) st).rows =
      ⟨r.email, Status.skipped_policy_violation, failureDetail (r.sendAt k)⟩ ::
        (runRecipients cfg bl stop rest (processRecipient cfg bl stop r st).st).rows := by
  obtain ⟨hrows, hres, hsl⟩ := attemptLoop3_policy cfg stop r.email r.sendAt k hk hd hp st
  have hstep := processRecipient_broke cfg bl stop r st hnb false true hres (by simp)
  have hn : (processRecipient cfg bl stop r st).res = StepRes.next := by rw [hstep]
  have hr := runRecipients_cons_next cfg bl stop r rest st hn
  refine ⟨by rw [hstep]; exact hrows, by rw [hstep]; exact hsl, hn, ?_⟩
  rw [hr]
  simp only [hstep]
  rw [hrows]
  simp

/-- Witness for C2: a concrete refused recipient with policy-violation text
(and `stop_on_error` set) gets the `skipped_policy_violation` row, the
600-second pause, and the run moves on. -/
theorem policy_violation_pause_witness :
    hasPolicyViolation "Policy Violation" = true ∧
    (processRecipient cfg0 ∅ true rPolRef st0).rows =
      [⟨"c@x", Status.skipped_policy_violation, errDetail (some 421) "Policy Violation"⟩] ∧
    600 ∈ (processRecipient cfg0 ∅ true rPolRef st0).sleeps ∧
    (processRecipient cfg0 ∅ true rPolRef st0).res = StepRes.next :=
  ⟨rfl,
    (policy_violation_pause_continue cfg0 ∅ true rPolRef [] st0 0 (by omega)
      (fun j hj => absurd hj (by omega))
      (Or.inl ⟨some 421, "Policy Violation", rfl, by decide, rfl⟩) (by decide)).1,
    (policy_violation_pause_continue cfg0 ∅ true rPolRef [] st0 0 (by omega)
      (fun j hj => absurd hj (by omega))
      (Or.inl ⟨some 421, "Policy Violation", rfl, by decide, rfl⟩) (by decide)).2.1,
    (policy_violation_pause_continue cfg0 ∅ true rPolRef [] st0 0 (by omega)
      (fun j hj => absurd hj (by omega))
      (Or.inl ⟨some 421, "Policy Violation", rfl, by decide, rfl⟩) (by decide)).2.2.1⟩

/-- Counterexample for C2 as stated: a recipient whose three attempts all
disconnect with a message that IS policy-violation text gets no
`skipped_policy_violation` row and no 600-second pause — the exception
escapes and aborts the run even with `stop_on_error = false`, so the
policy-violation text check is not applied in the disconnect exception
path. -/
theorem policy_violation_disc_cex :
    hasPolicyViolation "policy violation" = true ∧
    (runRecipients cfg0 ∅ false [rPolDisc] st0).rows = [] ∧
    (runRecipients cfg0 ∅ false [rPolDisc] st0).sleeps = [5, 5] ∧
    (runRecipients cfg0 ∅ false [rPolDisc] st0).exit =
      RunExit.raised "policy violation" :=
  ⟨rfl, rfl, rfl, rfl⟩

/-- C1 (amended): a recipient whose three attempts all disconnect is not
treated as a generic failure: no policy-violation check happens, no
`failed` row is written, and the re-raised disconnect escapes to the
run-level handler, which reports and re-raises — the run aborts whatever
`stop_on_error` is, and the method ends with a propagating exception
carrying the rows written so far. -/
theorem disconnect_exhaustion_aborts (cfg : RateConfig) (bl : Finset String)
    (stop : Bool) (r : Recipient) (rest : List Recipient) (st : EngineState)
    (m0 m1 m2 : String)
    (h0 : r.sendAt 0 = SendResult.disconnected m0)
    (h1 : r.sendAt 1 = SendResult.disconnected m1)
    (h2 : r.sendAt 2 = SendResult.disconnected m2)
    (hnb : normalizeAddr r.email ∉ bl) :
    (runRecipients cfg bl stop (r :: rest) st).rows = [] ∧
    (runRecipients cfg bl stop (r :: rest) st).exit = RunExit.raised m2 ∧
    (send_newsletters ⟨some bl, none, none, r :: rest, stop, cfg⟩ st).outcome =
      RunOutcome.raisedWithResults [] m2 := by
  obtain ⟨hrows, hres⟩ := attemptLoop3_disc cfg stop r.email r.sendAt m0 m1 m2 h0 h1 h2 st
  have hstep := processRecipient_raised cfg bl stop r st hnb m2 hres
  have hm : (processRecipient cfg bl stop r st).res = StepRes.raised m2 := by rw [hstep]
  have hr := runRecipients_cons_raised cfg bl stop r rest st m2 hm
  have hrw : (runRecipients cfg bl stop (r :: rest) st).rows = [] := by
    rw [hr]
    simp only [hstep]
    exact hrows
  have hex : (runRecipients cfg bl stop (r :: rest) st).exit = RunExit.raised m2 := by
    rw [hr]
  refine ⟨hrw, hex, ?_⟩
  simp only [send_newsletters]
  rw [hex, hrw]

/-- Witness for C1 (amended): a concrete always-disconnecting recipient
with `stop_on_error = false`: no rows, the disconnect propagates, and the
method aborts with the exception. -/
theorem disconnect_exhaustion_witness :
    (runRecipients cfg0 ∅ false [rDisc] st0).rows = [] ∧
    (runRecipients cfg0 ∅ false [rDisc] st0).exit = RunExit.raised "boom" ∧
    (send_newsletters ⟨some ∅, none, none, [rDisc], false, cfg0⟩ st0).outcome =
      RunOutcome.raisedWithResults [] "boom" :=
  disconnect_exhaustion_aborts cfg0 ∅ false rDisc [] st0 "boom" "boom" "boom"
    rfl rfl rfl (by decide)

/-- Counterexample for C1 as stated: with `stop_on_error = false` the claim
says an exhausted disconnect yields a `failed` row and the run continues;
instead the concrete run writes no row and aborts with the re-raised
disconnect. -/
theorem disconnect_exhaustion_cex :
    (send_newsletters ⟨some ∅, none, none, [rDisc], false, cfg0⟩ st0).outcome =
      RunOutcome.raisedWithResults [] "boom" ∧
    RunOutcome.isRaised (RunOutcome.raisedWithResults [] "boom") = true :=
  ⟨rfl, rfl⟩

/-- C5: a recipient whose normalized address is in the suppression set gets
exactly one `skipped_blacklist` row (carrying the stripped address), no
sleep, no send attempt, an unchanged engine state, and the loop moves on to
the next recipient. -/
theorem suppressed_recipient_skipped (cfg : RateConfig) (bl : Finset String)
    (stop : Bool) (r : Recipient) (st : EngineState)
    (h : normalizeAddr r.email ∈ bl) :
    processRecipient cfg bl stop r st =
      ⟨[⟨pyStrip r.email, Status.skipped_blacklist, "blacklisted"⟩], [], 0, st,
        StepRes.next⟩ := by
  simp [processRecipient, h]

/-- Witness for C5: a concrete suppressed recipient (address differing from
the suppression entry in case and surrounding blanks) is skipped without
any attempt. -/
theorem suppressed_recipient_skipped_witness :
    normalizeAddr " Bob@X " ∈ ({"bob@x"} : Finset String) ∧
    processRecipient cfg0 {"bob@x"} true ⟨" Bob@X ", fun _ => SendResult.ok⟩ st0 =
      ⟨[⟨"Bob@X", Status.skipped_blacklist, "blacklisted"⟩], [], 0, st0,
        StepRes.next⟩ :=
  ⟨by decide, suppressed_recipient_skipped cfg0 {"bob@x"} true
    ⟨" Bob@X ", fun _ => SendResult.ok⟩ st0 (by decide)⟩

/-- C7 (amended): authentication/connection failure during the pre-send
verification propagates out of `send_newsletters` before the results file
exists, with no row written and no send attempted; a suppression-file load
failure also aborts before any send attempt and produces no results file,
but it is caught inside `send_newsletters`, which logs and returns
normally instead of letting the error propagate. -/
theorem startup_failure_behavior (inp : RunInput) (st : EngineState) :
    (inp.blacklistLoad = none →
      send_newsletters inp st = ⟨RunOutcome.returnedNoResults, 0, []⟩ ∧
      RunOutcome.isRaised (send_newsletters inp st).outcome = false) ∧
    (∀ bl m, inp.blacklistLoad = some bl → inp.connTestFail = some m →
      send_newsletters inp st = ⟨RunOutcome.raisedBeforeResults m, 0, []⟩ ∧
      RunOutcome.isRaised (send_newsletters inp st).outcome = true) := by
  constructor
  · intro h
    simp [send_newsletters, h, RunOutcome.isRaised]
  · intro bl m hb hc
    simp [send_newsletters, hb, hc, RunOutcome.isRaised]

/-- Witness for C7 (amended): concrete startup failures — a failed
suppression load returns quietly with nothing done; a failed connection
test propagates before the results file exists. -/
theorem startup_failure_witness :
    send_newsletters ⟨none, none, none, [rOk], true, cfg0⟩ st0 =
      ⟨RunOutcome.returnedNoResults, 0, []⟩ ∧
    send_newsletters ⟨some ∅, some "auth failed", none, [rOk], true, cfg0⟩ st0 =
      ⟨RunOutcome.raisedBeforeResults "auth failed", 0, []⟩ :=
  ⟨((startup_failure_behavior ⟨none, none, none, [rOk], true, cfg0⟩ st0).1 rfl).1,
    ((startup_failure_behavior ⟨some ∅, some "auth failed", none, [rOk], true, cfg0⟩
        st0).2 ∅ "auth failed" rfl rfl).1⟩

/-- Counterexample for C7 as stated: the claim says a suppression-file load
failure is never caught locally and propagates; on the concrete run it is
caught and `send_newsletters` returns normally (no exception). -/
theorem startup_failure_cex :
    (send_newsletters ⟨none, none, none, [rOk], true, cfg0⟩ st0).outcome =
      RunOutcome.returnedNoResults ∧
    RunOutcome.isRaised
      (send_newsletters ⟨none, none, none, [rOk], true, cfg0⟩ st0).outcome =
      false :=
  ⟨rfl, rfl⟩

/-- A left fold that inserts the extraction of each line equals the union
with the finset of all extracted values. -/
theorem foldl_insert_filterMap (f : String → Option String)
    (body : Finset String → String → Finset String)
    (hbody : ∀ s line, body s line =
      match f line with
      | some e => insert e s
      | none => s) :
    ∀ (l : List String) (s : Finset String),
      l.foldl body s = s ∪ (l.filterMap f).toFinset := by
  intro l
  induction l with
  | nil => intro s; simp
  | cons a t ih =>
    intro s
    rw [List.foldl_cons, ih, hbody]
    cases hf : f a with
    | none => simp [List.filterMap_cons, hf]
    | some e =>
      simp [List.filterMap_cons, hf, Finset.insert_union, Finset.union_insert]

/-- C8: on any file, the loader's set is exactly the finset of addresses
the detected format yields — the `email`-column values of the rows after
the header when the first line contains `email` case-insensitively, the
first cells of all rows otherwise — each stripped and lowercased, empty
values dropped, and (headerless case) the stray value `email` skipped; in
particular the empty string is never in the set, and in the headerless
case neither is `email`. -/
theorem read_blacklist_spec (lines : List String) :
    (_read_blacklist lines =
      if strContains (pyLower (lines.headD "")) "email" = true
      then (headeredAddrs lines).toFinset
      else (headerlessAddrs lines).toFinset) ∧
    "" ∉ _read_blacklist lines ∧
    (strContains (pyLower (lines.headD "")) "email" = false →
      "email" ∉ _read_blacklist lines) := by
  have hmain : _read_blacklist lines =
      if strContains (pyLower (lines.headD "")) "email" = true
      then (headeredAddrs lines).toFinset
      else (headerlessAddrs lines).toFinset := by
    by_cases hh : strContains (pyLower (lines.headD "")) "email" = true
    · rw [if_pos hh]
      simp only [_read_blacklist, if_pos hh, headeredAddrs]
      rw [foldl_insert_filterMap
        (fun line =>
          let row := rowOf line
          if row = [] then none
          else
            let email := normalizeAddr (emailField (rowOf (lines.headD "")) row)
            if email = "" then none else some email)
        _ ?_ lines.tail ∅]
      · exact Finset.empty_union _
      · intro s line
        simp only []
        split_ifs <;> rfl
    · rw [if_neg hh]
      simp only [_read_blacklist, if_neg hh, headerlessAddrs]
      rw [foldl_insert_filterMap
        (fun line =>
          let row := rowOf line
          if row = [] then none
          else
            let email := normalizeAddr (row.getD 0 "")
            if email = "email" then none
            else if email = "" then none else some email)
        _ ?_ lines ∅]
      · exact Finset.empty_union _
      · intro s line
        simp only []
        split_ifs <;> rfl
  refine ⟨hmain, ?_, ?_⟩
  · rw [hmain]
    split_ifs
    · simp only [List.mem_toFinset, headeredAddrs, List.mem_filterMap, not_exists]
      rintro a ⟨ha, hf⟩
      split_ifs at hf with h1 h2 <;> simp_all
    · simp only [List.mem_toFinset, headerlessAddrs, List.mem_filterMap, not_exists]
      rintro a ⟨ha, hf⟩
      split_ifs at hf with h1 h2 h3 <;> simp_all
  · intro hh
    rw [hmain, if_neg (by rw [hh]; exact Bool.false_ne_true)]
    simp only [List.mem_toFinset, headerlessAddrs, List.mem_filterMap, not_exists]
    rintro a ⟨ha, hf⟩
    split_ifs at hf with h1 h2 h3 <;> simp_all

/-- Witness for C8: a concrete headerless file — the stray `email` line is
skipped and cells are normalized. -/
theorem read_blacklist_spec_witness :
    strContains (pyLower "a@x,foo") "email" = false ∧
    "email" ∉ _read_blacklist ["a@x,foo", "email", " B@y "] ∧
    _read_blacklist ["a@x,foo", "email", " B@y "] =
      (headerlessAddrs ["a@x,foo", "email", " B@y "]).toFinset :=
  ⟨by decide,
    (read_blacklist_spec ["a@x,foo", "email", " B@y "]).2.2 (by decide),
    by
      have h := (read_blacklist_spec ["a@x,foo", "email", " B@y "]).1
      rwa [if_neg (by decide)] at h⟩

/-- The attempt loop writes at most one row, and that row carries the
recipient address it was called with. -/
theorem attemptLoop_rows_shape (cfg : RateConfig) (stop : Bool)
    (email : String) (sendAt : Nat → SendResult) :
    ∀ (rem : Nat) (st : EngineState),
      (attemptLoop cfg stop email sendAt rem st).rows = [] ∨
      ∃ row : Row, (attemptLoop cfg stop email sendAt rem st).rows = [row] ∧
        row.email = email := by
  intro rem
  induction rem with
  | zero => intro st; left; rfl
  | succ n ih =>
    intro st
    cases hres : sendAt (2 - n) with
    | ok =>
      right
      exact ⟨⟨email, Status.success, ""⟩, by simp [attemptLoop, hres], rfl⟩
    | disconnected m =>
      by_cases hn : 0 < n
      · simpa [attemptLoop, hres, hn] using ih _
      · left; simp [attemptLoop, hres, hn]
    | recipientsRefused c m =>
      right
      by_cases h5 : c = some 556
      · exact ⟨⟨email, Status.skipped, errDetail c m⟩,
          by simp [attemptLoop, hres, h5], rfl⟩
      · by_cases hp : hasPolicyViolation m = true
        · exact ⟨⟨email, Status.skipped_policy_violation, errDetail c m⟩,
            by simp [attemptLoop, hres, h5, hp], rfl⟩
        · exact ⟨⟨email, Status.failed, errDetail c m⟩,
            by simp [attemptLoop, hres, h5, hp], rfl⟩
    | dataError c m =>
      right
      by_cases h5 : c = some 556
      · exact ⟨⟨email, Status.skipped, errDetail c m⟩,
          by simp [attemptLoop, hres, h5], rfl⟩
      · by_cases hp : hasPolicyViolation m = true
        · exact ⟨⟨email, Status.skipped_policy_violation, errDetail c m⟩,
            by simp [attemptLoop, hres, h5, hp], rfl⟩
        · exact ⟨⟨email, Status.failed, errDetail c m⟩,
            by simp [attemptLoop, hres, h5, hp], rfl⟩
    | otherError m =>
      right
      by_cases hp : hasPolicyViolation m = true
      · exact ⟨⟨email, Status.skipped_policy_violation, m⟩,
          by simp [attemptLoop, hres, hp], rfl⟩
      · exact ⟨⟨email, Status.failed, m⟩,
          by simp [attemptLoop, hres, hp], rfl⟩

/-- One recipient contributes at most one row, whose address is the
stripped address if suppressed and the raw address otherwise. -/
theorem processRecipient_rows_shape (cfg : RateConfig) (bl : Finset String)
    (stop : Bool) (r : Recipient) (st : EngineState) :
    (processRecipient cfg bl stop r st).rows = [] ∨
    ∃ row : Row, (processRecipient cfg bl stop r st).rows = [row] ∧
      row.email = emitEmail bl r := by
  by_cases h : normalizeAddr r.email ∈ bl
  · right
    exact ⟨⟨pyStrip r.email, Status.skipped_blacklist, "blacklisted"⟩,
      by simp [processRecipient, h], by simp [emitEmail, h]⟩
  · have hrows : (processRecipient cfg bl stop r st).rows =
        (attemptLoop cfg stop r.email r.sendAt 3 st).rows := by
      simp only [processRecipient, if_neg h]
      cases hres : (attemptLoop cfg stop r.email r.sendAt 3 st).res with
      | broke s nfs =>
        simp only [hres]
        split <;> rfl
      | halted => simp [hres]
      | raised m => simp [hres]
    rw [hrows]
    rcases attemptLoop_rows_shape cfg stop r.email r.sendAt 3 st with h0 | ⟨row, hr, he⟩
    · exact Or.inl h0
    · exact Or.inr ⟨row, hr, by simp [emitEmail, h, he]⟩

/-- Every status the engine can write is one of the five closed-set status
strings of the results file. -/
theorem statusStr_mem (s : Status) :
    statusStr s ∈
      ["success", "skipped_blacklist", "skipped", "skipped_policy_violation",
        "failed"] := by
  cases s <;> simp [statusStr]

/-- C9 (amended): the addresses of the results rows form a subsequence of
the per-recipient emitted addresses (in input order, at most one row per
input row), so whenever those emitted addresses are pairwise distinct every
address appears at most once in the results file; and every row carries one
of the five closed-set statuses.  (As stated the claim fails when the
recipient file repeats an address — see the counterexample.) -/
theorem results_rows_shape (cfg : RateConfig) (bl : Finset String)
    (stop : Bool) :
    ∀ (rs : List Recipient) (st : EngineState),
      List.Sublist ((runRecipients cfg bl stop rs st).rows.map Row.email)
        (rs.map (emitEmail bl)) ∧
      ((rs.map (emitEmail bl)).Nodup →
        ((runRecipients cfg bl stop rs st).rows.map Row.email).Nodup) ∧
      (∀ row ∈ (runRecipients cfg bl stop rs st).rows,
        statusStr row.status ∈
          ["success", "skipped_blacklist", "skipped",
            "skipped_policy_violation", "failed"]) := by
  intro rs
  induction rs with
  | nil =>
    intro st
    refine ⟨by simp [runRecipients], fun _ => by simp [runRecipients],
      fun row hrow => absurd hrow (by simp [runRecipients])⟩
  | cons r t ih =>
    intro st
    have hsub : List.Sublist
        ((runRecipients cfg bl stop (r :: t) st).rows.map Row.email)
        ((r :: t).map (emitEmail bl)) := by
      cases hres : (processRecipient cfg bl stop r st).res with
      | next =>
        rw [runRecipients_cons_next cfg bl stop r t st hres]
        rcases processRecipient_rows_shape cfg bl stop r st with h0 | ⟨row, hr, he⟩
        · simp only [h0, List.nil_append, List.map_cons]
          exact List.Sublist.cons _ (ih _).1
        · simp only [hr, List.singleton_append, List.map_cons, he]
          exact List.Sublist.cons₂ _ (ih _).1
      | halted =>
        rw [runRecipients_cons_halted cfg bl stop r t st hres]
        rcases processRecipient_rows_shape cfg bl stop r st with h0 | ⟨row, hr, he⟩
        · simp [h0]
        · simp only [hr, List.map_cons, List.map_nil, List.map_cons, he]
          exact List.Sublist.cons₂ _ (List.nil_sublist _)
      | raised m =>
        rw [runRecipients_cons_raised cfg bl stop r t st m hres]
        rcases processRecipient_rows_shape cfg bl stop r st with h0 | ⟨row, hr, he⟩
        · simp [h0]
        · simp only [hr, List.map_cons, List.map_nil, he]
          exact List.Sublist.cons₂ _ (List.nil_sublist _)
    refine ⟨hsub, fun hnd => hnd.sublist hsub, fun row _ => statusStr_mem row.status⟩

/-- Witness for C9 (amended): on a concrete two-recipient run with distinct
addresses the result addresses are duplicate-free. -/
theorem results_rows_shape_witness :
    ([rOk, rFail].map (emitEmail ∅)).Nodup ∧
    ((runRecipients cfg0 ∅ false [rOk, rFail] st0).rows.map Row.email).Nodup :=
  ⟨by decide,
    (results_rows_shape cfg0 ∅ false [rOk, rFail] st0).2.1 (by decide)⟩

/-- Counterexample for C9 as stated: when the recipient file lists the same
address twice, that address appears twice in the results file. -/
theorem results_rows_cex :
    ((runRecipients cfg0 ∅ true [rOk, rOk] st0).rows.map Row.email).count "a@x"
      = 2 ∧
    rOk.email = "a@x" :=
  ⟨rfl, rfl⟩

end Newsletter
